import Mathlib

/-!
Verification of the VENOM-Omega-Lambda repository specification.

Shallow embedding conventions:
* Python floats are modelled as real numbers; `math.log` is `Real.log`.
* Exact decimal constants from the source (weights, thresholds) are modelled
  as rationals where no transcendental function is involved.
* Fallible Python code (raising `ValueError`, `ZeroDivisionError`,
  `IndexError`) is modelled with `Except PyErr`.
* Python dicts keyed by strings are modelled as association lists in
  insertion order (updating an existing key keeps its position, a new key
  is appended), matching CPython dict semantics.
-/

/-- Python exception kinds raised by the modelled code paths. -/
inductive PyErr
  | valueError
  | zeroDivisionError
  | indexError
deriving DecidableEq

namespace Tetrastrat

/-! Embedding of src/venom_lambda/core/fractal.py (the canonical
tetrastrat module). -/

/-- Immutable configuration, from the frozen dataclass `Config`. -/
structure Config where
  theta_low : ℝ
  theta_high : ℝ
  t1 : ℝ
  k : ℝ
  p : ℝ
  u : ℝ
  mobius_iter : ℕ

/-- The module-level `CFG = Config()` with the dataclass defaults. -/
noncomputable def CFG : Config :=
  { theta_low := 3/10, theta_high := 7/10, t1 := 1, k := 100, p := 10,
    u := 1000000, mobius_iter := 10 }

/-- Model of `time_wrap(k, p, u, t1)`.  The source first raises
`ValueError` when `k * p == 1`; evaluating the returned expression then
raises `ValueError` (math domain error) from `math.log(u)` when `u <= 0`,
and `ZeroDivisionError` from `1 / (k * p)` when `k * p == 0`; otherwise it
returns `(t1 * ln u) / (1 - 1 / (k * p))`. -/
noncomputable def time_wrap (k p u t1 : ℝ) : Except PyErr ℝ :=
  if k * p = 1 then .error .valueError
  else if u ≤ 0 then .error .valueError
  else if k * p = 0 then .error .zeroDivisionError
  else .ok ((t1 * Real.log u) / (1 - 1 / (k * p)))

/-- The state argument of `fractal_total`: an integer, or the float
infinity sentinel `float("inf")`. -/
inductive FState
  | state (z : ℤ)
  | inf
deriving DecidableEq

/-- The module-level `_STATE_MAP` dictionary, as a lookup function. -/
def _STATE_MAP (z : ℤ) : Option (String × List String) :=
  if z = 1 then
    some ("Regen", ["Scan", "Detect", "Quarantine", "Heal", "Improve", "Reinvest"])
  else if z = 0 then
    some ("Neutral", ["Scan", "Detect", "Quarantine", "Heal", "Neutralize", "Stabilize"])
  else if z = -1 then
    some ("Entropy", ["Reinvest_neg", "Degrade", "Infect", "Spread", "Ignore", "Blind"])
  else none

/-- Model of `fallback(theta)`. -/
noncomputable def fallback (theta : ℝ) : String × List String :=
  if theta ≥ CFG.theta_high then ("Fallback→+1", ["Regen"])
  else if theta ≥ CFG.theta_low then ("Fallback→0", ["Neutral"])
  else ("Fallback→-1", ["Entropy"])

/-- Model of `fractal_total(s, theta)`: the `_STATE_MAP` entry for an
integer state in the map, `fallback(theta)` for the infinity sentinel, and
`ValueError` otherwise. -/
noncomputable def fractal_total (s : FState) (theta : ℝ) :
    Except PyErr (String × List String) :=
  match s with
  | .state z =>
    match _STATE_MAP z with
    | some v => .ok v
    | none => .error .valueError
  | .inf => .ok (fallback theta)

/-- Model of `mobius_time(s, k, p, u, theta, t1)`.  The branches for
states 0 and -1 evaluate `math.log(u)`, which raises for `u <= 0`. -/
noncomputable def mobius_time (s : FState) (k p u theta t1 : ℝ) :
    Except PyErr ℝ :=
  match s with
  | .state z =>
    if z = 1 then time_wrap k p u t1
    else if z = 0 then
      if u ≤ 0 then .error .valueError else .ok (t1 * Real.log u)
    else if z = -1 then
      if u ≤ 0 then .error .valueError
      else .ok (∑ i in Finset.range CFG.mobius_iter, t1 * (k * p) ^ i * Real.log u)
    else .error .valueError
  | .inf => .ok (((fallback theta).2.length : ℝ) * t1)

end Tetrastrat

namespace LegacyFractal

/-! Embedding of src/lambda/core/fractal.py (the legacy continuous
module). -/

/-- Model of the legacy `time_wrap(k, p, u, t1)`: returns `0.0` when
`t1 <= 0`; otherwise evaluates `t1 / (k * (1 + math.log(1 + p)) * (1 + u))`,
where `math.log(1 + p)` raises `ValueError` (math domain error) for
`p <= -1` and the division raises `ZeroDivisionError` when the denominator
is zero. -/
noncomputable def time_wrap (k p u t1 : ℝ) : Except PyErr ℝ :=
  if t1 ≤ 0 then .ok 0
  else if p ≤ -1 then .error .valueError
  else if k * (1 + Real.log (1 + p)) * (1 + u) = 0 then .error .zeroDivisionError
  else .ok (t1 / (k * (1 + Real.log (1 + p)) * (1 + u)))

end LegacyFractal

namespace Arbiter

/-! Embedding of `LambdaArbiter.recalibrate` from
src/venom_lambda/arbiter_core/arbiter.py.  An organ result dict is
abstracted to its `action` entry (`none` when the key is absent), the only
part of the dict that `recalibrate` reads.  The genome `weights` dict
(string keys of length one) is a function from characters to optional
rationals. -/

/-- Score of one organ result: `1.0` if the result has an `action` entry
different from `"error"`, else `0.0`. -/
def organScore (action : Option String) : ℚ :=
  match action with
  | some a => if a = "error" then 0 else 1
  | none => 0

/-- One iteration of the loop in `recalibrate`: `organ_name[0]` raises
`IndexError` on an empty name; otherwise the weight is
`weights.get(organ_key, 0.25)` and the pair of running sums
`(integrated_score, total_weight)` is updated. -/
def recalibrateStep (weights : Char → Option ℚ) (acc : ℚ × ℚ)
    (pr : String × Option String) : Except PyErr (ℚ × ℚ) :=
  match pr.1.toList with
  | [] => .error .indexError
  | c :: _ =>
    let weight := (weights c).getD (1/4)
    .ok (acc.1 + weight * organScore pr.2, acc.2 + weight)

/-- Model of `recalibrate(organ_results)`, returning the
`integrated_score` field of the result dict: the weighted sum is
normalized by the total weight when that is positive. -/
def recalibrate (weights : Char → Option ℚ)
    (organ_results : List (String × Option String)) : Except PyErr ℚ := do
  let sw ← organ_results.foldlM (recalibrateStep weights) (0, 0)
  pure (if 0 < sw.2 then sw.1 / sw.2 else sw.1)

/-- The fallback default genome weights from `LambdaArbiter.__init__`
(genome.json is absent from the repository, so this is the genome in
effect). -/
def defaultWeights : Char → Option ℚ := fun c =>
  if c = 'R' then some (1/5)
  else if c = 'B' then some (3/10)
  else if c = 'E' then some (3/20)
  else if c = 'O' then some (3/10)
  else if c = 'Λ' then some (1/20)
  else none

/-- The weight looked up for an organ name (meaningful for non-empty
names): the genome weight of the first letter, defaulting to `1/4`. -/
def organWeight (weights : Char → Option ℚ) (name : String) : ℚ :=
  (weights name.toList.headI).getD (1/4)

/-- Specification-level weighted score sum `Σ weight * score`. -/
def scoreSum (weights : Char → Option ℚ)
    (rs : List (String × Option String)) : ℚ :=
  (rs.map (fun pr => organWeight weights pr.1 * organScore pr.2)).sum

/-- Specification-level weight sum `Σ weight`. -/
def weightSum (weights : Char → Option ℚ)
    (rs : List (String × Option String)) : ℚ :=
  (rs.map (fun pr => organWeight weights pr.1)).sum

end Arbiter

namespace Orchestrator

/-! Embedding of `MeshOrchestrator.health_check` from
src/venom_lambda/core/venom_mesh_orchestrator.py.  The peers dict maps a
node id to its peer record, abstracted to the optional `last_seen`
timestamp (`.get('last_seen', 0)` defaults to 0); `time.time()` is the
explicit `now` argument. -/

/-- Model of `health_check(node_id)`: false for an unknown peer, else
true exactly when `now - last_seen < 60`. -/
def health_check (peers : List (String × Option ℚ)) (now : ℚ)
    (node_id : String) : Bool :=
  match peers.lookup node_id with
  | none => false
  | some v => decide (now - v.getD 0 < 60)

end Orchestrator

namespace MeshOrganism

/-! Embedding of src/venom_lambda/mesh/nanobot.py,
src/venom_lambda/mesh/mesh.py, src/venom_lambda/pulse/pulse.py and
src/app/src/main/java/com/venom/aios/integration/integration_manager.py.
Wall-clock timestamps are explicit rational arguments; message data is an
arbitrary type. -/

/-- A stored message dict: `timestamp`, `data`, `processed`, plus the
role-dependent `indexed` and `relayed` flags (a flag field is `false`
when the corresponding dict key is absent). -/
structure NBMessage (α : Type) where
  timestamp : ℚ
  data : α
  processed : Bool
  indexed : Bool
  relayed : Bool
deriving DecidableEq

/-- Model of the `NanoBot` object state. -/
structure NanoBot (α : Type) where
  node_id : String
  role : String
  memory : List (NBMessage α)
  active : Bool
  messages_received : ℕ
  messages_processed : ℕ
  created_at : ℚ
  memory_capacity : ℕ

/-- Model of `NanoBot._get_memory_capacity`: the capacities dict lookup
with default 100. -/
def getMemoryCapacity (role : String) : ℕ :=
  if role = "memory_carrier" then 200
  else if role = "signal_relay" then 50
  else if role = "knowledge_keeper" then 500
  else if role = "generic" then 100
  else 100

/-- Model of `NanoBot.__init__(node_id, role)` at creation time `now`:
the given role string is stored as-is and the capacity is derived from
it. -/
def NanoBot.init (α : Type) (node_id role : String) (now : ℚ) : NanoBot α :=
  { node_id := node_id, role := role, memory := [], active := true,
    messages_received := 0, messages_processed := 0, created_at := now,
    memory_capacity := getMemoryCapacity role }

/-- Model of `NanoBot._process_message`, acting on the freshly appended
message dict (the Python code mutates the dict in place). -/
def processMessage (role : String) (m : NBMessage α) : NBMessage α :=
  if role = "memory_carrier" then { m with indexed := true }
  else if role = "signal_relay" then { m with relayed := true }
  else if role = "knowledge_keeper" then { m with indexed := true, processed := true }
  else if role = "generic" then { m with processed := true }
  else m

/-- Model of `NanoBot.receive(data)` at time `now`: no-op when inactive;
otherwise the counters are bumped, the processed message is appended, and
the oldest entry is popped when the capacity is exceeded. -/
def NanoBot.receive (b : NanoBot α) (now : ℚ) (data : α) : NanoBot α :=
  if b.active = false then b
  else
    let msg := processMessage b.role
      { timestamp := now, data := data, processed := false,
        indexed := false, relayed := false }
    let mem := b.memory ++ [msg]
    { b with
      messages_received := b.messages_received + 1,
      messages_processed := b.messages_processed + 1,
      memory := if b.memory_capacity < mem.length then mem.drop 1 else mem }

/-- Sequential reception of a list of `(timestamp, data)` messages. -/
def NanoBot.receiveAll (b : NanoBot α) (msgs : List (ℚ × α)) : NanoBot α :=
  msgs.foldl (fun bb pr => bb.receive pr.1 pr.2) b

/-- The fresh message built by `receive` for one `(timestamp, data)`
pair, after `_process_message` ran on it. -/
def builtMessage (role : String) (pr : ℚ × α) : NBMessage α :=
  processMessage role
    { timestamp := pr.1, data := pr.2, processed := false,
      indexed := false, relayed := false }

/-- Python dict assignment `d[k] = v` on an insertion-ordered dict:
updating an existing key keeps its position, a new key is appended. -/
def dictInsert (l : List (String × ν)) (k : String) (v : ν) :
    List (String × ν) :=
  if (l.lookup k).isSome then
    l.map (fun pr => if pr.1 = k then (k, v) else pr)
  else l ++ [(k, v)]

/-- Model of `queue.Queue(maxsize).put(x, timeout=...)`: `maxsize = 0`
means unbounded; a bounded full queue raises `queue.Full` (here `none`). -/
def queuePut (maxsize : ℕ) (q : List γ) (x : γ) : Option (List γ) :=
  if maxsize = 0 ∨ q.length < maxsize then some (q ++ [x]) else none

/-- Model of the `Mesh` object state, from src/venom_lambda/mesh/mesh.py.
Node references have type `ν`; message payloads have type `δ`.  A signal
log entry is abstracted to its `(recipient, data)` pair. -/
structure Mesh (ν δ : Type) where
  nodes : List (String × ν)
  message_queue : List (String × δ)
  queue_maxsize : ℕ
  alive : Bool
  signal_log : List (String × δ)
  messages_delivered : ℕ
  messages_dropped : ℕ
  total_nodes : ℕ

/-- Model of `Mesh.__init__`: the delivery queue is `queue.Queue()`,
whose default `maxsize` is 0, i.e. unbounded. -/
def Mesh.init : Mesh ν δ :=
  { nodes := [], message_queue := [], queue_maxsize := 0, alive := false,
    signal_log := [], messages_delivered := 0, messages_dropped := 0,
    total_nodes := 0 }

/-- Model of `Mesh.add_node(node_id, node_ref)`. -/
def Mesh.add_node (m : Mesh ν δ) (node_id : String) (node_ref : ν) :
    Mesh ν δ :=
  { m with nodes := dictInsert m.nodes node_id node_ref,
           total_nodes := m.total_nodes + 1 }

/-- One iteration of the loop in `Mesh.broadcast`: a non-sender node gets
the message enqueued; `queue.Full` bumps `messages_dropped`. -/
def broadcastStep (sender : String) (data : δ) (acc : Mesh ν δ)
    (nd : String × ν) : Mesh ν δ :=
  if nd.1 ≠ sender then
    match queuePut acc.queue_maxsize acc.message_queue (nd.1, data) with
    | some q2 => { acc with message_queue := q2 }
    | none => { acc with messages_dropped := acc.messages_dropped + 1 }
  else acc

/-- Model of `Mesh.broadcast(sender, data)`. -/
def Mesh.broadcast (m : Mesh ν δ) (sender : String) (data : δ) :
    Mesh ν δ :=
  m.nodes.foldl (broadcastStep sender data) m

/-- Model of `Mesh.send(recipient, data)`. -/
def Mesh.send (m : Mesh ν δ) (recipient : String) (data : δ) : Mesh ν δ :=
  if (m.nodes.lookup recipient).isSome then
    match queuePut m.queue_maxsize m.message_queue (recipient, data) with
    | some q2 => { m with message_queue := q2 }
    | none => { m with messages_dropped := m.messages_dropped + 1 }
  else m

/-- One pass of the body of `Mesh.deliver` that consumes a queued
message, given the effect `recv` of calling `.receive` on a node
(`none` models the call raising an exception, in which case only
`messages_dropped` is bumped).  A recipient no longer in the mesh is
silently discarded.  The signal log keeps its last 1000 entries. -/
def Mesh.deliverStep (m : Mesh ν δ) (recv : ν → δ → Option ν) : Mesh ν δ :=
  match m.message_queue with
  | [] => m
  | (nid, d) :: rest =>
    match m.nodes.lookup nid with
    | none => { m with message_queue := rest }
    | some node =>
      match recv node d with
      | none =>
        { m with message_queue := rest,
                 messages_dropped := m.messages_dropped + 1 }
      | some node2 =>
        let sl := m.signal_log ++ [(nid, d)]
        { m with message_queue := rest,
                 nodes := dictInsert m.nodes nid node2,
                 messages_delivered := m.messages_delivered + 1,
                 signal_log := if 1000 < sl.length then sl.drop (sl.length - 1000) else sl }

/-- Model of the `PulseFractal` object state, from
src/venom_lambda/pulse/pulse.py, bound to an arbiter of type `A` (a
mobius engine is never supplied by the integration manager). -/
structure PulseFractal (A : Type) where
  lambda_arbiter : A
  alive : Bool
  beat_count : ℕ
  total_beats : ℕ
  cycle_time : ℚ
  adaptive_timing : Bool

/-- Model of `PulseFractal.__init__(lambda_arbiter)`: the heart is
created not alive, with a 1ms cycle. -/
def PulseFractal.init (arb : A) : PulseFractal A :=
  { lambda_arbiter := arb, alive := false, beat_count := 0,
    total_beats := 0, cycle_time := 1/1000, adaptive_timing := false }

/-- Model of `PulseFractal.start`: a no-op when already alive, else the
pulse becomes alive and the beat thread is spawned. -/
def PulseFractal.start (p : PulseFractal A) : PulseFractal A :=
  if p.alive then p else { p with alive := true, beat_count := 0 }

/-- The f-string `f"nanobot-{i}"` used by `start_organism`. -/
def nanobotName (i : ℕ) : String := "nanobot-" ++ toString i

/-- The role cycle list of `start_organism`. -/
def rolesList : List String :=
  ["memory_carrier", "signal_relay", "knowledge_keeper", "generic"]

/-- Model of the `IntegrationManager` object state, from
src/app/src/main/java/com/venom/aios/integration/integration_manager.py.
The arbiter is abstracted to a value of type `A`; the mesh node refs
passed by `start_organism` are the role strings themselves. -/
structure IntegrationManager (A : Type) where
  arbiter : A
  mesh : Mesh String Unit
  pulse : Option (PulseFractal A)

/-- Model of `IntegrationManager.__init__`. -/
def IntegrationManager.init (arb : A) : IntegrationManager A :=
  { arbiter := arb, mesh := Mesh.init, pulse := none }

/-- The status record returned by `start_organism`. -/
structure StartStatus where
  status : String
  nanobots : ℕ
  mesh_nodes : ℕ
deriving DecidableEq

/-- Model of `IntegrationManager.start_organism(nanobot_count)`: for each
`i` the pair `("nanobot-i", role)` is added to the mesh with the role
cycling through `rolesList`, then `self.pulse` is set to a fresh
`PulseFractal(self.arbiter)` (its `start` method is not called), and the
status record is returned. -/
def IntegrationManager.start_organism (im : IntegrationManager A)
    (nanobot_count : ℕ) : IntegrationManager A × StartStatus :=
  let mesh2 := (List.range nanobot_count).foldl
    (fun mm i => mm.add_node (nanobotName i) (rolesList.getD (i % 4) "generic"))
    im.mesh
  ({ im with mesh := mesh2, pulse := some (PulseFractal.init im.arbiter) },
   { status := "started", nanobots := nanobot_count,
     mesh_nodes := mesh2.nodes.length })

end MeshOrganism

namespace DecimalRepr

/-! Decimal representation of naturals, used to prove that the node names
"nanobot-0", "nanobot-1", ... generated by `start_organism` are pairwise
distinct. -/

/-- The digit list that `Nat.toDigitsCore 10` produces, as a structural
recursion. -/
def decimalDigits (n : ℕ) : List Char :=
  if n / 10 = 0 then [Nat.digitChar (n % 10)]
  else decimalDigits (n / 10) ++ [Nat.digitChar (n % 10)]
decreasing_by
  exact Nat.div_lt_self (Nat.pos_of_ne_zero (by omega)) (by omega)

end DecimalRepr

/-- Concrete message stream used to witness the NanoBot FIFO claim: 51
messages for a signal relay of capacity 50. -/
def msgsW : List (ℚ × ℕ) := (List.range 51).map (fun (i : ℕ) => ((i : ℚ), i))

/-- Concrete two-node mesh used to witness the unbounded-queue claim. -/
def meshW : MeshOrganism.Mesh ℕ ℕ :=
  { nodes := [("a", 1), ("b", 2)], message_queue := [], queue_maxsize := 0,
    alive := true, signal_log := [], messages_delivered := 0,
    messages_dropped := 0, total_nodes := 2 }

namespace DecimalRepr

theorem toDigitsCore_eq (f n : ℕ) (acc : List Char) (h : n < f) :
    Nat.toDigitsCore 10 f n acc = decimalDigits n ++ acc := by
  induction f generalizing n acc with
  | zero => omega
  | succ f ih =>
    rw [Nat.toDigitsCore, decimalDigits]
    by_cases h0 : n / 10 = 0
    · simp only [h0, if_pos, List.singleton_append]
    · simp only [h0, if_neg, ite_false]
      have hlt : n / 10 < f := by
        have h1 : n / 10 < n :=
          Nat.div_lt_self (Nat.pos_of_ne_zero (by omega)) (by omega)
        omega
      rw [ih _ _ hlt, List.append_assoc, List.singleton_append]

theorem toDigits_eq (n : ℕ) : Nat.toDigits 10 n = decimalDigits n := by
  rw [Nat.toDigits, toDigitsCore_eq _ _ _ (Nat.lt_succ_self n), List.append_nil]

theorem digitChar_injOn :
    ∀ a < 10, ∀ b < 10, Nat.digitChar a = Nat.digitChar b → a = b := by decide

theorem decimalDigits_eq (n : ℕ) :
    decimalDigits n =
      if n / 10 = 0 then [Nat.digitChar (n % 10)]
      else decimalDigits (n / 10) ++ [Nat.digitChar (n % 10)] := by
  rw [decimalDigits]

theorem decimalDigits_ne_nil (n : ℕ) : decimalDigits n ≠ [] := by
  rw [decimalDigits_eq]
  split <;> simp

theorem decimalDigits_injective : Function.Injective decimalDigits := by
  intro m
  induction m using Nat.strong_induction_on with
  | _ m ih =>
    intro n h
    rw [decimalDigits_eq m, decimalDigits_eq n] at h
    by_cases hm : m / 10 = 0 <;> by_cases hn : n / 10 = 0
    · simp only [hm, hn, ite_true, List.cons.injEq, and_true] at h
      have := digitChar_injOn (m % 10) (by omega) (n % 10) (by omega) h
      omega
    · simp only [hm, hn, ite_true, ite_false] at h
      have hlen := congrArg List.length h
      have hpos : 0 < (decimalDigits (n / 10)).length :=
        List.length_pos.mpr (decimalDigits_ne_nil (n / 10))
      simp only [List.length_singleton, List.length_append] at hlen
      omega
    · simp only [hm, hn, ite_true, ite_false] at h
      have hlen := congrArg List.length h
      have hpos : 0 < (decimalDigits (m / 10)).length :=
        List.length_pos.mpr (decimalDigits_ne_nil (m / 10))
      simp only [List.length_singleton, List.length_append] at hlen
      omega
    · simp only [hm, hn, ite_false] at h
      obtain ⟨h1, h2⟩ := List.append_inj' h rfl
      have hdiv : m / 10 = n / 10 :=
        ih (m / 10)
          (Nat.div_lt_self (Nat.pos_of_ne_zero (by omega)) (by omega)) h1
      have hmod := digitChar_injOn (m % 10) (by omega) (n % 10) (by omega)
        (by simpa using h2)
      omega

theorem repr_injective : Function.Injective Nat.repr := by
  intro a b h
  have hdata : Nat.toDigits 10 a = Nat.toDigits 10 b := by
    have h2 := congrArg String.data h
    simpa [Nat.repr, List.asString] using h2
  rw [toDigits_eq, toDigits_eq] at hdata
  exact decimalDigits_injective hdata

theorem nanobotName_injective : Function.Injective MeshOrganism.nanobotName := by
  intro a b h
  unfold MeshOrganism.nanobotName at h
  have h2 := congrArg String.data h
  simp only [String.data_append] at h2
  have h3 := List.append_cancel_left h2
  exact repr_injective (String.ext h3)

end DecimalRepr

namespace Arbiter

theorem toList_ne_nil {s : String} (h : s ≠ "") : s.toList ≠ [] := by
  intro hnil
  exact h (String.ext (by simpa [String.toList] using hnil))

theorem recalibrate_fold (weights : Char → Option ℚ)
    (rs : List (String × Option String)) (hne : ∀ pr ∈ rs, pr.1 ≠ "") :
    ∀ s0 w0 : ℚ,
      rs.foldlM (recalibrateStep weights) (s0, w0) =
        .ok (s0 + scoreSum weights rs, w0 + weightSum weights rs) := by
  induction rs with
  | nil =>
    intro s0 w0
    simp only [List.foldlM_nil, scoreSum, weightSum, List.map_nil,
      List.sum_nil, add_zero]
    rfl
  | cons pr rest ih =>
    intro s0 w0
    have hpr : pr.1.toList ≠ [] := toList_ne_nil (hne pr (List.mem_cons_self _ _))
    obtain ⟨c, cs, hc⟩ : ∃ c cs, pr.1.toList = c :: cs := by
      cases h : pr.1.toList with
      | nil => exact absurd h hpr
      | cons c cs => exact ⟨c, cs, rfl⟩
    have hc2 : pr.1.data = c :: cs := hc
    rw [List.foldlM_cons]
    have hstep : recalibrateStep weights (s0, w0) pr =
        .ok (s0 + organWeight weights pr.1 * organScore pr.2,
             w0 + organWeight weights pr.1) := by
      simp [recalibrateStep, String.toList, hc2, organWeight, List.headI]
    rw [hstep]
    have hrest := ih (fun q hq => hne q (List.mem_cons_of_mem _ hq))
    have hbind :
        (Except.ok (s0 + organWeight weights pr.1 * organScore pr.2,
            w0 + organWeight weights pr.1) >>=
          fun sw => rest.foldlM (recalibrateStep weights) sw) =
        rest.foldlM (recalibrateStep weights)
          (s0 + organWeight weights pr.1 * organScore pr.2,
           w0 + organWeight weights pr.1) := rfl
    rw [hbind, hrest]
    simp [scoreSum, weightSum, add_assoc]

theorem organScore_bounds (a : Option String) :
    0 ≤ organScore a ∧ organScore a ≤ 1 := by
  rcases a with _ | s
  · simp [organScore]
  · simp only [organScore]
    split <;> norm_num

theorem organWeight_nonneg (weights : Char → Option ℚ)
    (h : ∀ c q, weights c = some q → 0 ≤ q) (name : String) :
    0 ≤ organWeight weights name := by
  unfold organWeight
  cases hq : weights name.toList.headI with
  | none => norm_num
  | some q => simpa using h _ q hq

theorem sums_bounds (weights : Char → Option ℚ)
    (h : ∀ c q, weights c = some q → 0 ≤ q)
    (rs : List (String × Option String)) :
    0 ≤ scoreSum weights rs ∧ scoreSum weights rs ≤ weightSum weights rs := by
  induction rs with
  | nil => simp [scoreSum, weightSum]
  | cons pr rest ih =>
    have hw := organWeight_nonneg weights h pr.1
    have hs := organScore_bounds pr.2
    constructor
    · simp only [scoreSum, List.map_cons, List.sum_cons]
      have : (0 : ℚ) ≤ organWeight weights pr.1 * organScore pr.2 :=
        mul_nonneg hw hs.1
      have h2 := ih.1
      simp only [scoreSum] at h2
      linarith
    · simp only [scoreSum, weightSum, List.map_cons, List.sum_cons]
      have h1 : organWeight weights pr.1 * organScore pr.2 ≤
          organWeight weights pr.1 :=
        mul_le_of_le_one_right hw hs.2
      have h2 := ih.2
      simp only [scoreSum, weightSum] at h2
      linarith

theorem defaultWeights_nonneg :
    ∀ c q, defaultWeights c = some q → 0 ≤ q := by
  intro c q hq
  unfold defaultWeights at hq
  split_ifs at hq <;> injection hq with hq <;> rw [← hq] <;> norm_num

end Arbiter

namespace MeshOrganism

theorem getMemoryCapacity_pos (role : String) : 0 < getMemoryCapacity role := by
  unfold getMemoryCapacity
  split_ifs <;> norm_num

theorem receiveAll_cons (b : NanoBot α) (pr : ℚ × α) (rest : List (ℚ × α)) :
    b.receiveAll (pr :: rest) = (b.receive pr.1 pr.2).receiveAll rest := by
  simp [NanoBot.receiveAll]

theorem receive_active_eq (b : NanoBot α) (now : ℚ) (d : α)
    (hact : b.active = true) :
    b.receive now d =
      { b with
        messages_received := b.messages_received + 1,
        messages_processed := b.messages_processed + 1,
        memory :=
          if b.memory_capacity < (b.memory ++ [builtMessage b.role (now, d)]).length
          then (b.memory ++ [builtMessage b.role (now, d)]).drop 1
          else b.memory ++ [builtMessage b.role (now, d)] } := by
  rw [NanoBot.receive, if_neg (by simp [hact])]
  rfl

theorem receiveAll_memory (msgs : List (ℚ × α)) :
    ∀ b : NanoBot α, b.active = true → 0 < b.memory_capacity →
      b.memory.length ≤ b.memory_capacity →
      (b.receiveAll msgs).memory =
        (b.memory ++ msgs.map (builtMessage b.role)).drop
          (b.memory.length + msgs.length - b.memory_capacity) := by
  induction msgs with
  | nil =>
    intro b hact hcap hlen
    simp [NanoBot.receiveAll, Nat.sub_eq_zero_of_le hlen]
  | cons pr rest ih =>
    intro b hact hcap hlen
    obtain ⟨t, d⟩ := pr
    rw [receiveAll_cons, receive_active_eq b t d hact]
    rcases lt_or_eq_of_le hlen with hlt | heq
    · have hcond : ¬ b.memory_capacity <
          (b.memory ++ [builtMessage b.role (t, d)]).length := by
        simp only [List.length_append, List.length_singleton]
        omega
      rw [if_neg hcond]
      have hres := ih
        { b with
          messages_received := b.messages_received + 1,
          messages_processed := b.messages_processed + 1,
          memory := b.memory ++ [builtMessage b.role (t, d)] }
        hact hcap (by simp only [List.length_append, List.length_singleton]; omega)
      simp only at hres
      rw [hres]
      simp only [List.length_append, List.length_singleton, List.length_cons,
        List.map_cons]
      rw [List.append_cons b.memory (builtMessage b.role (t, d))
        (rest.map (builtMessage b.role))]
      congr 1
      simp only [List.length_nil]
      omega
    · have hcond : b.memory_capacity <
          (b.memory ++ [builtMessage b.role (t, d)]).length := by
        simp only [List.length_append, List.length_singleton]
        omega
      rw [if_pos hcond]
      have hres := ih
        { b with
          messages_received := b.messages_received + 1,
          messages_processed := b.messages_processed + 1,
          memory := (b.memory ++ [builtMessage b.role (t, d)]).drop 1 }
        hact hcap
        (by simp only [List.length_drop, List.length_append,
              List.length_singleton]; omega)
      simp only at hres
      rw [hres]
      have hcount : ((b.memory ++ [builtMessage b.role (t, d)]).drop 1).length +
          rest.length - b.memory_capacity = rest.length := by
        simp only [List.length_drop, List.length_append, List.length_singleton]
        omega
      rw [hcount]
      have hsplit : ((b.memory ++ [builtMessage b.role (t, d)]) ++
            rest.map (builtMessage b.role)).drop 1 =
          (b.memory ++ [builtMessage b.role (t, d)]).drop 1 ++
            rest.map (builtMessage b.role) := by
        rw [List.drop_append_eq_append_drop]
        have h1 : 1 - (b.memory ++ [builtMessage b.role (t, d)]).length = 0 := by
          simp only [List.length_append, List.length_singleton]
          omega
        rw [h1, List.drop_zero]
      rw [← hsplit, List.drop_drop]
      simp only [List.length_cons, List.map_cons]
      rw [List.append_cons b.memory (builtMessage b.role (t, d))
        (rest.map (builtMessage b.role))]
      have hcount2 : b.memory.length + (rest.length + 1) - b.memory_capacity =
          rest.length + 1 := by omega
      rw [hcount2]
      congr 1
      omega

end MeshOrganism

namespace MeshOrganism

theorem lookup_of_not_mem {l : List (String × ν)} {key : String}
    (h : ∀ pr ∈ l, pr.1 ≠ key) : l.lookup key = none := by
  induction l with
  | nil => rfl
  | cons pr rest ih =>
    obtain ⟨a, v⟩ := pr
    have h1 : a ≠ key := h (a, v) (List.mem_cons_self _ _)
    have hbeq : (key == a) = false := beq_eq_false_iff_ne.mpr (Ne.symm h1)
    simp only [List.lookup, hbeq]
    exact ih (fun q hq => h q (List.mem_cons_of_mem _ hq))

theorem dictInsert_of_not_mem {l : List (String × ν)} {key : String}
    (v : ν) (h : l.lookup key = none) :
    dictInsert l key v = l ++ [(key, v)] := by
  simp [dictInsert, h]

theorem start_fold_nodes (n : ℕ) :
    ((List.range n).foldl
      (fun mm i => mm.add_node (nanobotName i) (rolesList.getD (i % 4) "generic"))
      (Mesh.init : Mesh String Unit)).nodes =
    (List.range n).map
      (fun i => (nanobotName i, rolesList.getD (i % 4) "generic")) := by
  induction n with
  | zero => rfl
  | succ n ih =>
    rw [List.range_succ, List.foldl_append, List.map_append]
    simp only [List.foldl_cons, List.foldl_nil, List.map_cons, List.map_nil]
    rw [show ∀ mm : Mesh String Unit, (mm.add_node (nanobotName n)
        (rolesList.getD (n % 4) "generic")).nodes =
        dictInsert mm.nodes (nanobotName n) (rolesList.getD (n % 4) "generic")
      from fun mm => rfl]
    rw [ih]
    rw [dictInsert_of_not_mem _ (lookup_of_not_mem ?_)]
    intro pr hpr
    obtain ⟨i, hi, hpr2⟩ := List.mem_map.mp hpr
    rw [← hpr2]
    intro hcontra
    have := DecimalRepr.nanobotName_injective hcontra
    have hlt := List.mem_range.mp hi
    omega

theorem broadcast_fold (sender : String) (data : δ) (l : List (String × ν)) :
    ∀ m : Mesh ν δ, m.queue_maxsize = 0 →
      l.foldl (broadcastStep sender data) m =
        { m with message_queue := m.message_queue ++
            (l.filter (fun nd => nd.1 ≠ sender)).map (fun nd => (nd.1, data)) } := by
  induction l with
  | nil =>
    intro m hm
    simp
  | cons nd rest ih =>
    intro m hm
    rw [List.foldl_cons]
    by_cases hs : nd.1 = sender
    · have hstep : broadcastStep sender data m nd = m := by
        simp [broadcastStep, hs]
      rw [hstep, ih m hm]
      have hfil : (nd :: rest).filter (fun q => q.1 ≠ sender) =
          rest.filter (fun q => q.1 ≠ sender) := by
        simp [List.filter_cons, hs]
      rw [hfil]
    · have hstep : broadcastStep sender data m nd =
          { m with message_queue := m.message_queue ++ [(nd.1, data)] } := by
        simp [broadcastStep, hs, queuePut, hm]
      rw [hstep,
        ih { m with message_queue := m.message_queue ++ [(nd.1, data)] } hm]
      have hfil : (nd :: rest).filter (fun q => q.1 ≠ sender) =
          nd :: rest.filter (fun q => q.1 ≠ sender) := by
        simp [List.filter_cons, hs]
      rw [hfil]
      simp [List.append_assoc]

end MeshOrganism

/-- C8 (amended): `start_organism(n)` on a fresh integration manager
populates the mesh with `n` entries named "nanobot-i" whose role strings
cycle through memory_carrier, signal_relay, knowledge_keeper, generic in
fixed order, sets `self.pulse` to a fresh `PulseFractal` bound to the
arbiter WITHOUT starting it (`PulseFractal.start` is never called, so the
pulse is not alive), and returns a status record reporting the nanobot
count and the mesh node count. -/
theorem C8_start_organism_amended (A : Type) (arb : A) (n : ℕ) :
    ((MeshOrganism.IntegrationManager.init arb).start_organism n).1.mesh.nodes =
      (List.range n).map
        (fun i => (MeshOrganism.nanobotName i,
                   MeshOrganism.rolesList.getD (i % 4) "generic")) ∧
    ((MeshOrganism.IntegrationManager.init arb).start_organism n).1.pulse =
      some (MeshOrganism.PulseFractal.init arb) ∧
    (MeshOrganism.PulseFractal.init arb).lambda_arbiter = arb ∧
    (MeshOrganism.PulseFractal.init arb).alive = false ∧
    ((MeshOrganism.IntegrationManager.init arb).start_organism n).2 =
      { status := "started", nanobots := n, mesh_nodes := n } := by
  have hnodes := MeshOrganism.start_fold_nodes n
  refine ⟨?_, rfl, rfl, rfl, ?_⟩
  · exact hnodes
  · have h2 : ((MeshOrganism.IntegrationManager.init arb).start_organism n).2 =
        { status := "started", nanobots := n,
          mesh_nodes := ((List.range n).foldl
            (fun mm i => mm.add_node (MeshOrganism.nanobotName i)
              (MeshOrganism.rolesList.getD (i % 4) "generic"))
            (MeshOrganism.Mesh.init : MeshOrganism.Mesh String Unit)).nodes.length } :=
      rfl
    rw [h2, hnodes]
    simp [List.length_map, List.length_range]

/-- Counterexample for C8 as stated: after `start_organism(10)` the pulse
object exists but is not alive; `PulseFractal.start` (which would set
`alive := true` and spawn the beat thread) is never called by
`start_organism`, so no heartbeat is started. -/
theorem C8_counterexample :
    (((MeshOrganism.IntegrationManager.init ()).start_organism 10).1.pulse).map
      MeshOrganism.PulseFractal.alive = some false := by
  rfl

/-- C9: the mesh delivery queue is created unbounded (`maxsize = 0`), so
`broadcast` enqueues exactly one `(node_id, data)` entry for every node
other than the sender and never drops, `send` never drops and enqueues
exactly when the recipient is present, and one delivery iteration bumps
`messages_dropped` exactly when the recipient is found and its `receive`
call raises. -/
theorem C9_mesh_unbounded (ν δ : Type) (m : MeshOrganism.Mesh ν δ)
    (sender recipient : String) (data : δ) (recv : ν → δ → Option ν)
    (h : m.queue_maxsize = 0) :
    (MeshOrganism.Mesh.init : MeshOrganism.Mesh ν δ).queue_maxsize = 0 ∧
    (m.broadcast sender data).message_queue =
      m.message_queue ++
        (m.nodes.filter (fun nd => nd.1 ≠ sender)).map (fun nd => (nd.1, data)) ∧
    (m.broadcast sender data).messages_dropped = m.messages_dropped ∧
    (m.send recipient data).messages_dropped = m.messages_dropped ∧
    (m.send recipient data).message_queue =
      (if (m.nodes.lookup recipient).isSome then
         m.message_queue ++ [(recipient, data)]
       else m.message_queue) ∧
    ((m.deliverStep recv).messages_dropped ≠ m.messages_dropped ↔
      ∃ nid d rest node, m.message_queue = (nid, d) :: rest ∧
        m.nodes.lookup nid = some node ∧ recv node d = none) := by
  have hb := MeshOrganism.broadcast_fold sender data m.nodes m h
  refine ⟨rfl, ?_, ?_, ?_, ?_, ?_⟩
  · rw [MeshOrganism.Mesh.broadcast, hb]
  · rw [MeshOrganism.Mesh.broadcast, hb]
  · rw [MeshOrganism.Mesh.send]
    split_ifs with hrec
    · rw [MeshOrganism.queuePut, if_pos (Or.inl h)]
    · rfl
  · rw [MeshOrganism.Mesh.send]
    split_ifs with hrec
    · rw [MeshOrganism.queuePut, if_pos (Or.inl h)]
    · rfl
  · rcases hq : m.message_queue with _ | ⟨⟨nid, d⟩, rest⟩
    · have hstep : m.deliverStep recv = m := by
        unfold MeshOrganism.Mesh.deliverStep
        simp [hq]
      rw [hstep]
      simp [hq]
    · rcases hn : m.nodes.lookup nid with _ | node
      · have hstep : m.deliverStep recv = { m with message_queue := rest } := by
          unfold MeshOrganism.Mesh.deliverStep
          simp [hq, hn]
        rw [hstep]
        simp [hq, hn]
      · rcases hr : recv node d with _ | node2
        · have hstep : m.deliverStep recv =
              { m with message_queue := rest,
                       messages_dropped := m.messages_dropped + 1 } := by
            unfold MeshOrganism.Mesh.deliverStep
            simp [hq, hn, hr]
          rw [hstep]
          simp only [hq, hn, hr]
          constructor
          · intro _
            exact ⟨nid, d, rest, node, rfl, hn, hr⟩
          · intro _
            omega
        · have hdrop : (m.deliverStep recv).messages_dropped =
              m.messages_dropped := by
            unfold MeshOrganism.Mesh.deliverStep
            simp [hq, hn, hr]
          rw [hdrop]
          simp [hq, hn, hr]

/-- Witness for C9: broadcasting from node "a" in a concrete two-node
mesh enqueues exactly one entry, for node "b". -/
theorem C9_witness :
    (meshW.broadcast "a" 5).message_queue =
      meshW.message_queue ++
        (meshW.nodes.filter (fun nd => nd.1 ≠ "a")).map (fun nd => (nd.1, 5)) :=
  (C9_mesh_unbounded ℕ ℕ meshW "a" "b" 5 (fun node d => some (node + d)) rfl).2.1

/-- C6: an active, freshly created NanoBot whose role has capacity `C`
that receives `C + k` messages (`k > 0`) ends with exactly `C` stored
messages, the oldest retained one being the `(k+1)`-th received message
(FIFO eviction); the per-role capacities are memory_carrier 200,
signal_relay 50, knowledge_keeper 500 and generic 100. -/
theorem C6_nanobot_fifo (α : Type) (node_id role : String) (now : ℚ)
    (msgs : List (ℚ × α)) (k : ℕ) (hk : 0 < k)
    (hlen : msgs.length = MeshOrganism.getMemoryCapacity role + k) :
    ((MeshOrganism.NanoBot.init α node_id role now).receiveAll msgs).memory.length =
      MeshOrganism.getMemoryCapacity role ∧
    ((MeshOrganism.NanoBot.init α node_id role now).receiveAll msgs).memory.head? =
      (msgs.get? k).map (MeshOrganism.builtMessage role) ∧
    MeshOrganism.getMemoryCapacity "memory_carrier" = 200 ∧
    MeshOrganism.getMemoryCapacity "signal_relay" = 50 ∧
    MeshOrganism.getMemoryCapacity "knowledge_keeper" = 500 ∧
    MeshOrganism.getMemoryCapacity "generic" = 100 := by
  have hmem := MeshOrganism.receiveAll_memory msgs
    (MeshOrganism.NanoBot.init α node_id role now) rfl
    (MeshOrganism.getMemoryCapacity_pos role) (by simp [MeshOrganism.NanoBot.init])
  simp only
    [show (MeshOrganism.NanoBot.init α node_id role now).memory = [] from rfl,
     show (MeshOrganism.NanoBot.init α node_id role now).role = role from rfl,
     show (MeshOrganism.NanoBot.init α node_id role now).memory_capacity =
       MeshOrganism.getMemoryCapacity role from rfl,
     List.nil_append, List.length_nil, Nat.zero_add] at hmem
  rw [hmem, hlen]
  have hdrop : MeshOrganism.getMemoryCapacity role + k -
      MeshOrganism.getMemoryCapacity role = k := by omega
  rw [hdrop]
  refine ⟨?_, ?_, rfl, rfl, rfl, rfl⟩
  · rw [List.length_drop, List.length_map, hlen]
    omega
  · rw [List.head?_drop]
    simp [List.getElem?_map, List.get?_eq_getElem?]
  -- the four capacity equations hold by unfolding the capacities dict

/-- Witness for C6: a signal relay (capacity 50) that receives 51
messages retains exactly 50. -/
theorem C6_witness :
    0 < 1 ∧
    ((MeshOrganism.NanoBot.init ℕ "n" "signal_relay" 0).receiveAll
        msgsW).memory.length = MeshOrganism.getMemoryCapacity "signal_relay" :=
  ⟨Nat.one_pos,
   (C6_nanobot_fifo ℕ "n" "signal_relay" 0 msgsW 1 Nat.one_pos
      (by rw [msgsW, List.length_map, List.length_range]; decide)).1⟩

/-- C7 (amended): constructing a NanoBot with a role string outside the
four known roles keeps that role string on the agent (there is no
fallback of the role itself), while the memory capacity does fall back to
the generic capacity of 100. -/
theorem C7_nanobot_role_amended (node_id role : String) (now : ℚ)
    (h : role ∉ ["memory_carrier", "signal_relay", "knowledge_keeper", "generic"]) :
    (MeshOrganism.NanoBot.init Unit node_id role now).role = role ∧
    (MeshOrganism.NanoBot.init Unit node_id role now).memory_capacity = 100 := by
  simp only [List.mem_cons, List.not_mem_nil, or_false] at h
  push_neg at h
  obtain ⟨h1, h2, h3, h4⟩ := h
  exact ⟨rfl, by simp [MeshOrganism.NanoBot.init,
    MeshOrganism.getMemoryCapacity, h1, h2, h3, h4]⟩

/-- Witness for C7: the role "bogus" is invalid, is kept verbatim, and
yields capacity 100. -/
theorem C7_witness :
    ("bogus" ∉ ["memory_carrier", "signal_relay", "knowledge_keeper", "generic"]) ∧
    (MeshOrganism.NanoBot.init Unit "x" "bogus" 0).role = "bogus" ∧
    (MeshOrganism.NanoBot.init Unit "x" "bogus" 0).memory_capacity = 100 :=
  ⟨by decide, C7_nanobot_role_amended "x" "bogus" 0 (by decide)⟩

/-- Counterexample for C7 as stated: a NanoBot constructed with the
invalid role "bogus" does not have role "generic"; the constructor stores
the invalid role string unchanged. -/
theorem C7_counterexample :
    (MeshOrganism.NanoBot.init Unit "x" "bogus" 0).role ≠ "generic" := by
  decide

/-- C2 (amended): for every organ-results mapping whose organ names are
non-empty, `recalibrate` weighs each organ by the genome weight of the
first letter of its name (default 0.25 for an unrecognized letter),
scores it 1.0 exactly when its result has an `action` entry different
from `"error"` and 0.0 otherwise, and returns
`Σ weight*score / Σ weight` when the weight sum is positive and the raw
sum otherwise; with non-negative weights the score lies in `[0, 1]` and
is 0 when the weight sum is zero.  (An organ result keyed by the empty
string makes `organ_name[0]` raise `IndexError` instead, which is why
the universal claim over every mapping is restricted.) -/
theorem C2_recalibrate_amended (weights : Char → Option ℚ)
    (rs : List (String × Option String)) (hne : ∀ pr ∈ rs, pr.1 ≠ "") :
    Arbiter.recalibrate weights rs =
      .ok (if 0 < Arbiter.weightSum weights rs then
             Arbiter.scoreSum weights rs / Arbiter.weightSum weights rs
           else Arbiter.scoreSum weights rs) ∧
    ((∀ c q, weights c = some q → 0 ≤ q) →
      ∃ v, Arbiter.recalibrate weights rs = .ok v ∧ 0 ≤ v ∧ v ≤ 1) ∧
    ((∀ c q, weights c = some q → 0 ≤ q) →
      Arbiter.weightSum weights rs = 0 →
      Arbiter.recalibrate weights rs = .ok 0) := by
  have hfold := Arbiter.recalibrate_fold weights rs hne 0 0
  have hmain : Arbiter.recalibrate weights rs =
      .ok (if 0 < Arbiter.weightSum weights rs then
             Arbiter.scoreSum weights rs / Arbiter.weightSum weights rs
           else Arbiter.scoreSum weights rs) := by
    unfold Arbiter.recalibrate
    rw [hfold]
    simp
  refine ⟨hmain, ?_, ?_⟩
  · intro hw
    obtain ⟨hs0, hsw⟩ := Arbiter.sums_bounds weights hw rs
    refine ⟨_, hmain, ?_, ?_⟩
    · split_ifs with hpos
      · exact div_nonneg hs0 (le_of_lt hpos)
      · exact hs0
    · split_ifs with hpos
      · exact (div_le_one hpos).mpr hsw
      · have hw0 : Arbiter.weightSum weights rs ≤ 0 := le_of_not_lt hpos
        have : Arbiter.scoreSum weights rs = 0 := le_antisymm (hsw.trans hw0) hs0
        rw [this]
        norm_num
  · intro hw hzero
    obtain ⟨hs0, hsw⟩ := Arbiter.sums_bounds weights hw rs
    rw [hzero] at hsw
    have hs : Arbiter.scoreSum weights rs = 0 := le_antisymm hsw hs0
    rw [hmain, hzero, hs]
    norm_num

/-- Witness for C2: a two-organ mapping with non-empty names produces an
integrated score in `[0, 1]` under the default genome weights. -/
theorem C2_witness :
    ∃ v, Arbiter.recalibrate Arbiter.defaultWeights
        [("REGEN", some "regenerate"), ("BALANCE", some "error")] = .ok v ∧
      0 ≤ v ∧ v ≤ 1 :=
  (C2_recalibrate_amended Arbiter.defaultWeights
      [("REGEN", some "regenerate"), ("BALANCE", some "error")]
      (by decide)).2.1 Arbiter.defaultWeights_nonneg

/-- Counterexample for C2 as stated: the claim quantifies over every
organ-results mapping, but a mapping whose organ name is the empty string
makes `organ_name[0]` raise `IndexError`, so `recalibrate` does not
return an integrated score there. -/
theorem C2_counterexample :
    Arbiter.recalibrate Arbiter.defaultWeights [("", some "scan")] =
      .error .indexError := by
  rfl

/-- C3 (amended): the orchestrator reports an unknown peer id unhealthy,
reports a known peer healthy exactly when it was seen strictly within the
last 60 seconds, and therefore reports a peer exactly at the 60-second
threshold unhealthy (the source comparison is strict), as well as one a
second past it. -/
theorem C3_health_check_amended (peers : List (String × Option ℚ))
    (now : ℚ) (node_id : String) :
    (peers.lookup node_id = none →
      Orchestrator.health_check peers now node_id = false) ∧
    (∀ t, peers.lookup node_id = some (some t) →
      (Orchestrator.health_check peers now node_id = true ↔ now - t < 60)) ∧
    (∀ t, peers.lookup node_id = some (some t) → now - t = 60 →
      Orchestrator.health_check peers now node_id = false) ∧
    (∀ t, peers.lookup node_id = some (some t) → now - t = 61 →
      Orchestrator.health_check peers now node_id = false) := by
  refine ⟨?_, ?_, ?_, ?_⟩
  · intro h
    simp [Orchestrator.health_check, h]
  · intro t h
    simp [Orchestrator.health_check, h]
  · intro t h h60
    simp [Orchestrator.health_check, h, h60]
  · intro t h h61
    simp [Orchestrator.health_check, h, h61]
    norm_num

/-- Witness for C3: a peer seen 30 seconds ago is healthy; one seen 61
seconds ago is unhealthy. -/
theorem C3_witness :
    Orchestrator.health_check [("n1", some 0)] 30 "n1" = true ∧
    Orchestrator.health_check [("n1", some 0)] 61 "n1" = false :=
  ⟨((C3_health_check_amended [("n1", some 0)] 30 "n1").2.1 0
      (by decide)).mpr (by norm_num),
   (C3_health_check_amended [("n1", some 0)] 61 "n1").2.2.2 0
      (by decide) (by norm_num)⟩

/-- Counterexample for C3 as stated: a peer last seen exactly at the
60-second staleness threshold (last_seen 0, now 60) is reported
unhealthy, while the claim says it is healthy. -/
theorem C3_counterexample :
    Orchestrator.health_check [("n1", some 0)] 60 "n1" = false := by
  have h : (([("n1", some (0 : ℚ))] : List (String × Option ℚ)).lookup "n1") =
      some (some 0) := rfl
  simp [Orchestrator.health_check, h]

/-- C1 (amended): the canonical `time_wrap` fails with `ValueError` when
`k * p == 1`; in addition it fails with `ValueError` (math domain error)
when `u <= 0` and with `ZeroDivisionError` when `k * p == 0`, so the
`k * p == 1` case is not its only failure; for every other input it
returns `(t1 * ln u) / (1 - 1 / (k * p))`, and for `k = 100, p = 10,
u = 1e6, t1 = 1` the result is a (finite) positive real. -/
theorem C1_time_wrap_amended (k p u t1 : ℝ) :
    (k * p = 1 → Tetrastrat.time_wrap k p u t1 = .error .valueError) ∧
    (k * p ≠ 1 → u ≤ 0 → Tetrastrat.time_wrap k p u t1 = .error .valueError) ∧
    (k * p ≠ 1 → 0 < u → k * p = 0 →
      Tetrastrat.time_wrap k p u t1 = .error .zeroDivisionError) ∧
    (k * p ≠ 1 → 0 < u → k * p ≠ 0 →
      Tetrastrat.time_wrap k p u t1 =
        .ok ((t1 * Real.log u) / (1 - 1 / (k * p)))) ∧
    (∃ v, Tetrastrat.time_wrap 100 10 1000000 1 = .ok v ∧ 0 < v) := by
  refine ⟨?_, ?_, ?_, ?_, ?_⟩
  · intro h
    simp [Tetrastrat.time_wrap, h]
  · intro h1 h2
    simp [Tetrastrat.time_wrap, h1, h2]
  · intro h1 h2 h3
    simp [Tetrastrat.time_wrap, h1, h3, not_le.mpr h2]
  · intro h1 h2 h3
    simp [Tetrastrat.time_wrap, h1, h3, not_le.mpr h2]
  · refine ⟨(1 * Real.log 1000000) / (1 - 1 / (100 * 10)), ?_, ?_⟩
    · simp only [Tetrastrat.time_wrap]
      norm_num
    · rw [one_mul]
      apply div_pos (Real.log_pos (by norm_num))
      norm_num

/-- Witness for C1: concrete failure instances obtained from the
theorem. -/
theorem C1_witness :
    Tetrastrat.time_wrap 2 1 0 1 = .error .valueError ∧
    Tetrastrat.time_wrap 1 0 5 1 = .error .zeroDivisionError :=
  ⟨(C1_time_wrap_amended 2 1 0 1).2.1 (by norm_num) (by norm_num),
   (C1_time_wrap_amended 1 0 5 1).2.2.1 (by norm_num) (by norm_num) (by norm_num)⟩

/-- Counterexample for C1 as stated: at `k = 1, p = 0, u = 1e6, t1 = 1`
we have `k * p == 0 ≠ 1`, yet the call fails (with `ZeroDivisionError`
from `1 / (k * p)`) instead of returning
`(t1 * ln u) / (1 - 1 / (k * p))`, so `k * p == 1` is not the only
failure case. -/
theorem C1_counterexample :
    Tetrastrat.time_wrap 1 0 1000000 1 = .error .zeroDivisionError := by
  simp only [Tetrastrat.time_wrap]
  norm_num

/-- C4: the canonical `fractal_total` returns the state-table entry for
every state in `{1, 0, -1}` (state 1: "Regen" with the six operations
ending in "Reinvest"; state 0: "Neutral"; state -1: "Entropy"),
delegates to `fallback(theta)` on the infinite sentinel, and raises
`ValueError` for every integer state outside `{1, 0, -1}`. -/
theorem C4_fractal_total (theta : ℝ) :
    Tetrastrat.fractal_total (.state 1) theta =
      .ok ("Regen", ["Scan", "Detect", "Quarantine", "Heal", "Improve", "Reinvest"]) ∧
    Tetrastrat.fractal_total (.state 0) theta =
      .ok ("Neutral", ["Scan", "Detect", "Quarantine", "Heal", "Neutralize", "Stabilize"]) ∧
    Tetrastrat.fractal_total (.state (-1)) theta =
      .ok ("Entropy", ["Reinvest_neg", "Degrade", "Infect", "Spread", "Ignore", "Blind"]) ∧
    Tetrastrat.fractal_total .inf theta = .ok (Tetrastrat.fallback theta) ∧
    (∀ z : ℤ, z ≠ 1 → z ≠ 0 → z ≠ -1 →
      Tetrastrat.fractal_total (.state z) theta = .error .valueError) := by
  refine ⟨?_, ?_, ?_, rfl, ?_⟩
  · simp [Tetrastrat.fractal_total, Tetrastrat._STATE_MAP]
  · simp [Tetrastrat.fractal_total, Tetrastrat._STATE_MAP]
  · simp [Tetrastrat.fractal_total, Tetrastrat._STATE_MAP]
  · intro z h1 h0 hm1
    simp [Tetrastrat.fractal_total, Tetrastrat._STATE_MAP, h1, h0, hm1]

/-- Witness for C4: state 5 is rejected with an invalid-argument
error. -/
theorem C4_witness :
    Tetrastrat.fractal_total (.state 5) (1/2) = .error .valueError :=
  (C4_fractal_total (1/2)).2.2.2.2 5 (by decide) (by decide) (by decide)

/-- C10: on the infinite-sentinel state, `mobius_time` returns exactly
`t1`, independent of `theta`, `k`, `p` and `u`, because every branch of
`fallback` yields a single-element operations list. -/
theorem C10_mobius_time_inf (k p u theta t1 : ℝ) :
    Tetrastrat.mobius_time .inf k p u theta t1 = .ok t1 := by
  show Except.ok (((Tetrastrat.fallback theta).2.length : ℝ) * t1) = _
  unfold Tetrastrat.fallback
  split_ifs <;> simp

/-- C5 (amended): the legacy `time_wrap` returns exactly 0 when
`t1 <= 0`; otherwise, provided `p > -1` and the denominator
`k * (1 + ln(1 + p)) * (1 + u)` is nonzero, it returns
`t1 / (k * (1 + ln(1 + p)) * (1 + u))`; contrary to the claim it does
have further failure paths: `ValueError` (math domain error) for
`p <= -1` and `ZeroDivisionError` for a zero denominator (e.g. `k = 0`).
For all `p >= 0, u >= 0, k > 0, t1 > 0` the result is strictly less than
`t1` whenever the denominator exceeds 1, which holds for the documented
defaults `k = 1.5, p = 0.75, u = 0.2`. -/
theorem C5_legacy_time_wrap_amended (k p u t1 : ℝ) :
    (t1 ≤ 0 → LegacyFractal.time_wrap k p u t1 = .ok 0) ∧
    (0 < t1 → p ≤ -1 →
      LegacyFractal.time_wrap k p u t1 = .error .valueError) ∧
    (0 < t1 → -1 < p → k * (1 + Real.log (1 + p)) * (1 + u) = 0 →
      LegacyFractal.time_wrap k p u t1 = .error .zeroDivisionError) ∧
    (0 < t1 → -1 < p → k * (1 + Real.log (1 + p)) * (1 + u) ≠ 0 →
      LegacyFractal.time_wrap k p u t1 =
        .ok (t1 / (k * (1 + Real.log (1 + p)) * (1 + u)))) ∧
    (0 < t1 → 0 ≤ p → 0 ≤ u → 0 < k →
      1 < k * (1 + Real.log (1 + p)) * (1 + u) →
      ∃ v, LegacyFractal.time_wrap k p u t1 = .ok v ∧ v < t1) ∧
    1 < (3/2 : ℝ) * (1 + Real.log (1 + 3/4)) * (1 + 1/5) := by
  refine ⟨?_, ?_, ?_, ?_, ?_, ?_⟩
  · intro h
    simp [LegacyFractal.time_wrap, h]
  · intro h1 h2
    simp [LegacyFractal.time_wrap, not_le.mpr h1, h2]
  · intro h1 h2 h3
    simp [LegacyFractal.time_wrap, not_le.mpr h1, not_le.mpr h2, h3]
  · intro h1 h2 h3
    simp [LegacyFractal.time_wrap, not_le.mpr h1, not_le.mpr h2, h3]
  · intro h1 h2 h3 h4 h5
    have hp : -1 < p := by linarith
    have hne : k * (1 + Real.log (1 + p)) * (1 + u) ≠ 0 :=
      (zero_lt_one.trans h5).ne.symm
    refine ⟨t1 / (k * (1 + Real.log (1 + p)) * (1 + u)), ?_, ?_⟩
    · simp [LegacyFractal.time_wrap, not_le.mpr h1, not_le.mpr hp, hne]
    · exact div_lt_self h1 h5
  · have hl : 0 < Real.log (1 + 3/4) := Real.log_pos (by norm_num)
    nlinarith

/-- Witness for C5: at the documented defaults the legacy wrap strictly
compresses `t1 = 1000`. -/
theorem C5_witness :
    ∃ v, LegacyFractal.time_wrap (3/2) (3/4) (1/5) 1000 = .ok v ∧ v < 1000 :=
  (C5_legacy_time_wrap_amended (3/2) (3/4) (1/5) 1000).2.2.2.2.1
    (by norm_num) (by norm_num) (by norm_num) (by norm_num)
    (by nlinarith [Real.log_pos (show (1 : ℝ) < 1 + 3/4 by norm_num)])

/-- Counterexample for C5 as stated: at `k = 0, p = 0.75, u = 0.2,
t1 = 1000` we have `t1 > 0`, yet the call raises `ZeroDivisionError`
instead of returning `t1 / (k * (1 + ln(1 + p)) * (1 + u))`, so the
non-positive-input short-circuit is not the only non-formula path. -/
theorem C5_counterexample :
    LegacyFractal.time_wrap 0 (3/4) (1/5) 1000 = .error .zeroDivisionError := by
  simp only [LegacyFractal.time_wrap]
  norm_num
